import Mathlib

/-!
Verification development for the integrity-v2 folder-preprocessor pipeline.

The Go sources are shallowly embedded as pure Lean functions:

* `Webhook` models `webhook/client.go` (`PostFileToWebHook` response handling,
  including the fact that a JSON body carrying a string-valued `error` field
  cannot be decoded into the `PostGenericWebhookResponse` struct, whose
  `Error` field has the non-empty interface type `error`).
* The file-status store (`preprocessor/folder/database.go`) is modelled as a
  function from file paths to optional rows; `INSERT` respects the UNIQUE
  constraint on `file_path`, `UPDATE ... WHERE file_path = p` touches only
  the row at `p`.
* `checkShouldIncludeFile` (preprocessor/folder/file.go lines 66-82, identical
  in part_003 and part_005), `shouldIncludeFile` (part_004 lines 319-325) and
  Go's `filepath.Ext` are embedded directly; a `none` result marks the
  runtime panic `index out of range` from the unconditional `fileName[0]`.
* `V3.handleNewFile` embeds src/unnamed/part_003 lines 70-150 and
  `V5.handleNewFile` embeds src/unnamed/part_005 lines 129-265, with the
  external collaborators (file system, zip and signature verification, HTTP)
  supplied as explicit environment data, and an effect trace recording
  hashing, classification, uploads and database writes.
-/

namespace Webhook

/-- Outcome of decoding the HTTP response body, as seen by
`json.NewDecoder(resp.Body).Decode(&value)` in client.go lines 118-122.
`json cid err` is a well-formed JSON object with the given `"cid"` field
(`""` when absent) and, when `err = some e`, a string-valued `"error"` field. -/
inductive BodyOutcome where
  | malformed (msg : String)
  | json (cid : String) (err : Option String)
deriving DecidableEq

/-- Outcome of `client.Do(req)` in client.go line 103: either a transport
error or a response with a status code and a body. -/
inductive HttpOutcome where
  | transportError (msg : String)
  | response (status : Nat) (body : BodyOutcome)
deriving DecidableEq

/-- Errors returned by `PostFileToWebHook` (client.go lines 103-122). -/
inductive WebhookErr where
  | transport (msg : String)
  | badRequest
  | badStatusCode (code : Nat)
  | decodeJsonFailed (msg : String)
  | decodeErrorField
deriving DecidableEq

/-- Error strings produced by the Go code for each `WebhookErr`. -/
def WebhookErr.message : WebhookErr → String
  | .transport m => m
  | .badRequest => "bad request"
  | .badStatusCode c => "bad status code in response: " ++ toString c
  | .decodeJsonFailed m => m
  | .decodeErrorField =>
      "json: cannot unmarshal string into Go struct field PostGenericWebhookResponse.error of type error"

/-- Decoded response, client.go lines 25-28.  The Go struct also declares
`Error error`; since `error` is a non-empty interface, `encoding/json` can
never populate it from a JSON value other than `null` (a string value makes
`Decode` fail), so a successfully decoded response carries only the cid. -/
structure PostGenericWebhookResponse where
  cid : String
deriving DecidableEq

/-- Decoding the 200 body into `PostGenericWebhookResponse` (client.go lines
118-122).  A malformed body fails; a body whose `"error"` field holds a
string fails with the `encoding/json` unmarshal-type error, because the
struct field `Error` has interface type `error`. -/
def decodeBody : BodyOutcome → Except WebhookErr PostGenericWebhookResponse
  | .malformed m => .error (.decodeJsonFailed m)
  | .json cid none => .ok ⟨cid⟩
  | .json _ (some _) => .error .decodeErrorField

/-- Response handling of `PostFileToWebHook`, client.go lines 103-123:
transport errors abort; 400 and 404 yield the "bad request" error; any other
non-200 status yields the "bad status code" error carrying the code; a 200
response is decoded as JSON. -/
def PostFileToWebHook (o : HttpOutcome) : Except WebhookErr PostGenericWebhookResponse :=
  match o with
  | .transportError m => .error (.transport m)
  | .response status body =>
    if status = 400 then .error .badRequest
    else if status = 404 then .error .badRequest
    else if status ≠ 200 then .error (.badStatusCode status)
    else decodeBody body

end Webhook

/-- Embedding of Go's `filepath.Ext`: the suffix of the last path element
beginning at its final dot, scanning from the end and stopping at a path
separator; the accumulator carries the characters already scanned. -/
def extFromRev : List Char → List Char → String
  | [], _ => ""
  | c :: rest, acc =>
    if c = '/' then ""
    else if c = '.' then String.mk (c :: acc)
    else extFromRev rest (c :: acc)

/-- Go `filepath.Ext(path)`. -/
def filepathExt (path : String) : String :=
  extFromRev path.data.reverse []

/-- Embedding of `checkShouldIncludeFile` (preprocessor/folder/file.go lines
66-82; the same function appears in part_003 lines 153-169 and part_005
lines 268-284).  The config lookup
`config.GetConfig().FolderPreprocessor.FileExtensions` is passed as the
`whiteListExtension` parameter, and `info.Name()` as `fileName`.  The result
is `none` when the Go code panics: `fileName[0]` is evaluated
unconditionally, so the empty file name indexes out of range. -/
def checkShouldIncludeFile (whiteListExtension : List String) (fileName : String) : Option Bool :=
  match fileName.data with
  | [] => none
  | c :: _ =>
    if c = '.' then some false
    else
      let fileExt := filepathExt fileName
      if fileExt = ".partial" then some false
      else if fileExt ∈ whiteListExtension then some true
      else some false

/-- Embedding of `shouldIncludeFile` (src/unnamed/part_004 lines 319-325):
no allow-list is consulted; hidden files and `.partial` files are excluded.
`none` again marks the `fileName[0]` panic on the empty name. -/
def shouldIncludeFile (fileName : String) : Option Bool :=
  match fileName.data with
  | [] => none
  | c :: _ =>
    if c = '.' then some false
    else some (filepathExt fileName != ".partial")

/-- Modelled from the spec's words (the inclusion-filter sentence quoted by
claim C5, for comparison with `checkShouldIncludeFile`): a file qualifies
unless its name begins with the hidden-file marker, its extension is the
in-progress marker, or an allow-list is configured and the extension is
absent from it; with no allow-list configured every non-excluded file
qualifies. -/
def checkShouldIncludeFileSpec (whiteListExtension : List String) (fileName : String) : Bool :=
  !(fileName.data.head? == some '.') && (filepathExt fileName != ".partial") &&
    (whiteListExtension.isEmpty || whiteListExtension.contains (filepathExt fileName))

namespace Fingerprint

/-- Read limit of `mimetype.DetectReader`: the gabriel-vasile/mimetype
library reads at most 3072 bytes from the reader it is given. -/
def mimetypeReadLimit : Nat := 3072

/-- Bytes fed to the sha256/md5/blake3 accumulators by file.go
`getFileMetadata` (lines 30-41): the hashers hang off `io.TeeReader`s whose
only downstream consumer is `mimetype.DetectReader`, so they receive exactly
the prefix the sniffer reads, at most `mimetypeReadLimit` bytes. -/
def teeBytesHashed (content : List Nat) : List Nat :=
  content.take mimetypeReadLimit

/-- Bytes fed to the accumulators by part_005 `getFileMetadata` (lines
80-88): `io.Copy(io.MultiWriter(sha, md, blake), file)` drains the whole
file. -/
def multiWriterBytesHashed (content : List Nat) : List Nat :=
  content

/-- Lowercase hexadecimal digit, as used by Go's `hex.EncodeToString`. -/
def hexDigit (n : Nat) : Char :=
  if n < 10 then Char.ofNat (48 + n) else Char.ofNat (87 + n)

/-- Go `hex.EncodeToString`: two lowercase hex digits per byte, high nibble
first. -/
def hexEncodeToString (bs : List Nat) : String :=
  String.mk (bs.foldr (fun b acc => hexDigit (b / 16 % 16) :: hexDigit (b % 16) :: acc) [])

/-- Digest fields of the metadata map produced by file.go `getFileMetadata`
(lines 43-46), parameterised by the digest algorithms: each field is the
lowercase-hex encoding of the digest of the bytes that actually reached the
accumulators, namely `teeBytesHashed content`. -/
structure DigestFields where
  sha256 : String
  md5 : String
  blake3 : String
deriving DecidableEq

/-- Digest fields produced by file.go `getFileMetadata` on a file with the
given byte content. -/
def getFileMetadataDigests (shaF mdF blakeF : List Nat → List Nat) (content : List Nat) :
    DigestFields :=
  { sha256 := hexEncodeToString (shaF (teeBytesHashed content))
    md5 := hexEncodeToString (mdF (teeBytesHashed content))
    blake3 := hexEncodeToString (blakeF (teeBytesHashed content)) }

end Fingerprint

/-- C7: for every HTTP response received by PostFileToWebHook, a 400 or 404
status yields the rejected-request error, any other non-200 status yields
the generic bad-response error carrying the status code, and only a 200
response is decoded as a JSON object from which the content identifier is
taken. -/
theorem PostFileToWebHook_response_dispatch :
    ∀ (status : Nat) (body : Webhook.BodyOutcome),
      ((status = 400 ∨ status = 404) →
        Webhook.PostFileToWebHook (.response status body) = .error .badRequest) ∧
      (¬ status = 400 → ¬ status = 404 → ¬ status = 200 →
        Webhook.PostFileToWebHook (.response status body) = .error (.badStatusCode status)) ∧
      (status = 200 →
        Webhook.PostFileToWebHook (.response status body) = Webhook.decodeBody body) ∧
      (∀ cid, Webhook.decodeBody (.json cid none) = .ok ⟨cid⟩) := by
  intro status body
  refine ⟨?_, ?_, ?_, fun _ => rfl⟩
  · rintro (rfl | rfl) <;> simp [Webhook.PostFileToWebHook]
  · intro h400 h404 h200
    simp [Webhook.PostFileToWebHook, h400, h404, h200]
  · rintro rfl
    simp [Webhook.PostFileToWebHook]

/-- Witness for C7 at the concrete statuses 400, 503 and 200. -/
theorem PostFileToWebHook_response_dispatch_witness :
    Webhook.PostFileToWebHook (.response 400 (.json "" none)) = .error .badRequest ∧
    Webhook.PostFileToWebHook (.response 503 (.json "" none)) = .error (.badStatusCode 503) ∧
    Webhook.PostFileToWebHook (.response 200 (.json "bafy" none)) = .ok ⟨"bafy"⟩ := by
  refine ⟨(PostFileToWebHook_response_dispatch 400 (.json "" none)).1 (Or.inl rfl), ?_, ?_⟩
  · exact (PostFileToWebHook_response_dispatch 503 (.json "" none)).2.1
      (by decide) (by decide) (by decide)
  · have h := (PostFileToWebHook_response_dispatch 200 (.json "bafy" none)).2.2.1 rfl
    have h2 := (PostFileToWebHook_response_dispatch 200 (.json "bafy" none)).2.2.2 "bafy"
    rw [h, h2]

/-- C5 counterexample: the claim states that with no allow-list configured
every non-excluded file qualifies, but `checkShouldIncludeFile` with the
empty allow-list rejects `video.mp4`, a file the spec predicate
`checkShouldIncludeFileSpec` (the claim's own condition) accepts. -/
theorem checkShouldIncludeFile_empty_allowlist_counterexample :
    checkShouldIncludeFile [] "video.mp4" = some false ∧
    checkShouldIncludeFileSpec [] "video.mp4" = true := by
  constructor <;> rfl

/-- C5 (amended): `checkShouldIncludeFile` accepts a (non-empty) file name
iff the name does not begin with the hidden-file marker, the extension is
not the in-progress marker, and the extension is a member of the configured
allow-list, membership being required even when the allow-list is empty;
the part_004 variant `shouldIncludeFile` drops the allow-list test and
accepts every non-hidden, non-partial file. -/
theorem checkShouldIncludeFile_allowlist_required :
    ∀ (w : List String) (fileName : String) (c : Char) (cs : List Char),
      fileName.data = c :: cs →
      (checkShouldIncludeFile w fileName = some true ↔
        (c ≠ '.' ∧ filepathExt fileName ≠ ".partial" ∧ filepathExt fileName ∈ w)) ∧
      (shouldIncludeFile fileName = some true ↔
        (c ≠ '.' ∧ filepathExt fileName ≠ ".partial")) := by
  intro w fileName c cs h
  constructor
  · simp only [checkShouldIncludeFile, h]
    by_cases hc : c = '.'
    · simp [hc]
    · by_cases hp : filepathExt fileName = ".partial"
      · simp [hc, hp]
      · by_cases hm : filepathExt fileName ∈ w
        · simp [hc, hp, hm]
        · simp [hc, hp, hm]
  · simp only [shouldIncludeFile, h]
    by_cases hc : c = '.'
    · simp [hc]
    · by_cases hp : filepathExt fileName = ".partial"
      · simp [hc, hp]
      · simp [hc, hp]

/-- Witness for C5 (amended) at the allow-list containing only ".mp4" and
the file name video.mp4. -/
theorem checkShouldIncludeFile_allowlist_required_witness :
    checkShouldIncludeFile [".mp4"] "video.mp4" = some true ∧
    shouldIncludeFile "video.mp4" = some true := by
  have h := checkShouldIncludeFile_allowlist_required [".mp4"] "video.mp4"
    'v' "ideo.mp4".data rfl
  exact ⟨h.1.mpr (by refine ⟨by decide, by decide, by decide⟩),
    h.2.mpr ⟨by decide, by decide⟩⟩

/-- C10: both inclusion-filter variants read the first byte of the file name
unconditionally, so they are total exactly on non-empty names: the result is
the out-of-range panic (`none`) iff the file name is empty. -/
theorem shouldIncludeFile_requires_nonempty_name :
    ∀ (w : List String) (fileName : String),
      (checkShouldIncludeFile w fileName = none ↔ fileName = "") ∧
      (shouldIncludeFile fileName = none ↔ fileName = "") := by
  intro w fileName
  have hempty : fileName = "" ↔ fileName.data = [] := by
    rw [String.ext_iff]
  cases hd : fileName.data with
  | nil =>
    have h0 : fileName = "" := hempty.mpr hd
    constructor <;> simp [checkShouldIncludeFile, shouldIncludeFile, hd, h0]
  | cons c cs =>
    have hne : fileName ≠ "" := by
      intro h
      rw [hempty.mp h] at hd
      exact List.noConfusion hd
    have h1 : checkShouldIncludeFile w fileName ≠ none := by
      simp only [checkShouldIncludeFile, hd]
      split
      · simp
      · split
        · simp
        · split <;> simp
    have h2 : shouldIncludeFile fileName ≠ none := by
      simp only [shouldIncludeFile, hd]
      split <;> simp
    exact ⟨by simp [h1, hne], by simp [h2, hne]⟩

/-- C6: file.go's `getFileMetadata` feeds the hash accumulators through tee
readers drained only by the media-type sniffer, which stops after 3072
bytes; on a 4000-byte file the hashed bytes are a strict prefix of the
content, so the emitted digest fields are digests of that prefix, not of the
entire file.  The part_005 revision (`io.Copy` into a `MultiWriter`) hashes
the entire content. -/
theorem getFileMetadata_tee_hashes_prefix_only :
    Fingerprint.teeBytesHashed (List.replicate 4000 7) = List.replicate 3072 7 ∧
    List.replicate 3072 (7 : Nat) ≠ List.replicate 4000 7 ∧
    Fingerprint.multiWriterBytesHashed (List.replicate 4000 7) = List.replicate 4000 7 ∧
    (∀ shaF mdF blakeF : List Nat → List Nat,
      (Fingerprint.getFileMetadataDigests shaF mdF blakeF (List.replicate 4000 7)).sha256
        = Fingerprint.hexEncodeToString (shaF (List.replicate 3072 7))) := by
  have htake : Fingerprint.teeBytesHashed (List.replicate 4000 7) = List.replicate 3072 7 := by
    unfold Fingerprint.teeBytesHashed Fingerprint.mimetypeReadLimit
    rw [List.take_replicate]
    norm_num
  refine ⟨htake, ?_, rfl, ?_⟩
  · intro h
    have hl := congrArg List.length h
    rw [List.length_replicate, List.length_replicate] at hl
    exact absurd hl (by norm_num)
  · intro shaF mdF blakeF
    simp only [Fingerprint.getFileMetadataDigests, htake]

/-! Status store (preprocessor/folder/database.go and the file_status schema
in part_002): a table keyed by the UNIQUE `file_path` column, with nullable
`sha256`, `error` and `cid` columns and a NOT NULL `status` column.  The
table is modelled as a function from paths to optional rows; timestamps,
which no claim observes, are omitted. -/

/-- File status constants (part_005 lines 26-31). -/
def FileStatusFound : String := "Found"

def FileStatusUploading : String := "Uploading"

def FileStatusSuccess : String := "Success"

def FileStatusError : String := "Error"

/-- Row of the file_status table (the columns read and written by the
folder preprocessor). -/
structure Row where
  status : String
  sha256 : Option String
  error : Option String
  cid : Option String
deriving DecidableEq

/-- The file_status table, keyed by the unique file path. -/
abbrev Db := String → Option Row

def emptyDb : Db := fun _ => none

/-- Row inserted by `setFileStatusFound` (database.go lines 104-115). -/
def foundRow : Row :=
  { status := FileStatusFound, sha256 := none, error := none, cid := none }

/-- `setFileStatusFound` (database.go lines 104-115): an INSERT of a fresh
row in status Found; the UNIQUE constraint on file_path makes the insert
fail when a row for the path already exists. -/
def setFileStatusFound (db : Db) (p : String) : Except String Db :=
  if (db p).isSome then .error "duplicate key value violates unique constraint"
  else .ok (fun q => if q = p then some foundRow else db q)

/-- `setFileStatusUploading` (database.go lines 117-128): UPDATE of status
and sha256 for the row with the given path; a missing row makes the UPDATE
affect zero rows. -/
def setFileStatusUploading (db : Db) (p : String) (sha : String) : Db :=
  fun q => if q = p then
    (db q).map (fun r => { r with status := FileStatusUploading, sha256 := some sha })
  else db q

/-- `setFileStatusDone` (database.go lines 130-141): UPDATE to status
Success recording the cid. -/
def setFileStatusDone (db : Db) (p : String) (cid : String) : Db :=
  fun q => if q = p then
    (db q).map (fun r => { r with status := FileStatusSuccess, cid := some cid })
  else db q

/-- `setFileStatusError` (database.go lines 143-157): UPDATE to status Error
recording the error message. -/
def setFileStatusError (db : Db) (p : String) (msg : String) : Db :=
  fun q => if q = p then
    (db q).map (fun r => { r with status := FileStatusError, error := some msg })
  else db q

/-- Status of a path as `handleNewFile` computes it from the
`queryIfFileExists` result (part_005 lines 135-146): the stored status, or
the empty string when no row (or a NULL column) is found. -/
def statusOf (db : Db) (p : String) : String :=
  ((db p).map Row.status).getD ""

/-- Project row from the project_metadata table (database.go lines 49-78).
The schema declares project_id and project_path NOT NULL, so only the
author columns are optional. -/
structure Project where
  projectId : String
  projectPath : String
  authorType : Option String
  authorName : Option String
  authorIdentifier : Option String
deriving DecidableEq

/-- Metadata record for one asset.  Only the keys the pipeline control flow
reads are kept as fields: "sha256" (read by the Uploading transition) and
"file_name" (read by the proofmode upload loop); all other keys land in
`extra`. -/
structure Meta where
  sha256 : String
  fileName : String
  extra : List (String × String) := []
deriving DecidableEq

/-- Project/author annotation of one metadata record (part_005 lines
187-205, part_003 lines 114-130): adds project_id, project_path and, when
any author column is set, an author object holding the non-null subfields;
the nested author map is flattened here.  No key read by the control flow is
touched. -/
def annotateProject (project : Option Project) (m : Meta) : Meta :=
  match project with
  | none => m
  | some pr =>
    let base := m.extra ++ [("project_id", pr.projectId), ("project_path", pr.projectPath)]
    let withAuthor :=
      if pr.authorType.isSome ∨ pr.authorName.isSome ∨ pr.authorIdentifier.isSome then
        base ++ (pr.authorType.map (fun t => ("author.@type", t))).toList
          ++ (pr.authorName.map (fun n => ("author.name", n))).toList
          ++ (pr.authorIdentifier.map (fun i => ("author.identifier", i))).toList
      else base
    { m with extra := withAuthor }

/-- Observable side effects of one `handleNewFile` invocation: hashing,
classification, bundle verification, zip and file reads, webhook uploads
and status-store writes. -/
inductive Effect where
  | classify
  | verifyProofMode
  | hashFile
  | openFile
  | openZip
  | openZipEntry (name : String)
  | uploadCall
  | dbInsertFound
  | dbSetUploading (sha : String)
  | dbSetDone (cid : String)
  | dbSetError (msg : String)
deriving DecidableEq

/-- Errors returned by `handleNewFile`; each constructor corresponds to one
wrapped-error return in part_003/part_005. -/
inductive HandleErr where
  | dbError (msg : String)
  | fileHasError (path msg : String)
  | checkTypeFailed (msg : String)
  | proofModeFailed (msg : String)
  | metadataFailed (msg : String)
  | zipOpenFailed (path msg : String)
  | zipListFailed (msg : String)
  | zipEntryOpenFailed (name msg : String)
  | openFailed (path msg : String)
  | postFailed (path : String) (e : Webhook.WebhookErr)
  | fileNotFoundInZip (name : String)
deriving DecidableEq

/-- Result of one `handleNewFile` invocation: the returned value (`none`
marks a runtime panic), the database after the call, and the effect
trace. -/
structure StepOut where
  result : Option (Except HandleErr String)
  db : Db
  trace : List Effect

namespace V3

/-- External collaborators of part_003's `handleNewFile`: the metadata/hash
computation (`getFileMetadata`, part_003 lines 31-66) and the webhook
exchange, supplied as data. -/
structure Env where
  genericMetadata : Except String Meta
  upload : Webhook.HttpOutcome

/-- Embedding of part_003 `handleNewFile` (lines 70-150).  Control flow:
query the stored row; Success and Error short-circuit; Found/Uploading
merely log; an absent row is inserted as Found; then hash, annotate, mark
Uploading with the sha256, post to the webhook, and mark Done.  Line 145 of
the source passes the stale `cid` variable read by the initial query to
`setFileStatusDone`, not `resp.Cid`; the embedding reproduces that. -/
def handleNewFile (env : Env) (db : Db) (p : String) (project : Option Project) : StepOut :=
  let res := db p
  let status := (res.map Row.status).getD ""
  let errorMessage := (res.bind Row.error).getD ""
  let cid0 := (res.bind Row.cid).getD ""
  if status = FileStatusSuccess then
    ⟨some (.ok cid0), db, []⟩
  else if status = FileStatusError then
    ⟨some (.error (.fileHasError p errorMessage)), db, []⟩
  else
    let claimed : Except HandleErr (Db × List Effect) :=
      if status = FileStatusFound ∨ status = FileStatusUploading then .ok (db, [])
      else
        match setFileStatusFound db p with
        | .error e => .error (.dbError e)
        | .ok db1 => .ok (db1, [.dbInsertFound])
    match claimed with
    | .error e => ⟨some (.error e), db, []⟩
    | .ok (db1, tr1) =>
      match env.genericMetadata with
      | .error e =>
        ⟨some (.error (.metadataFailed e)), setFileStatusError db1 p e,
          tr1 ++ [.hashFile, .dbSetError e]⟩
      | .ok m0 =>
        let m := annotateProject project m0
        let db2 := setFileStatusUploading db1 p m.sha256
        match Webhook.PostFileToWebHook env.upload with
        | .error we =>
          ⟨some (.error (.postFailed p we)), setFileStatusError db2 p we.message,
            tr1 ++ [.hashFile, .dbSetUploading m.sha256, .uploadCall, .dbSetError we.message]⟩
        | .ok resp =>
          ⟨some (.ok resp.cid), setFileStatusDone db2 p cid0,
            tr1 ++ [.hashFile, .dbSetUploading m.sha256, .uploadCall, .dbSetDone cid0]⟩

end V3

namespace V5

/-- Classification result of `checkFileType` (part_005 lines 105-125): the
file type ("generic" unless the zip probe recognises a proofmode bundle)
together with the sniffed media type. -/
inductive CheckedType where
  | generic (mediaType : String)
  | proofmode (mediaType : String)
deriving DecidableEq

/-- External collaborators of part_005's `handleNewFile`, supplied as data:
classification, bundle verification, hashing, the zip reader and the
webhook exchange (indexed by upload count, for the per-asset loop). -/
structure Env where
  checkFileType : Except String CheckedType
  proofModeMetadatas : Except String (List Meta)
  genericMetadata : Except String Meta
  zipOpen : Except String Unit
  zipNames : Except String (List String)
  zipEntryOpen : String → Except String Unit
  fileOpen : Except String Unit
  upload : Nat → Webhook.HttpOutcome

/-- Result of the per-asset upload loop. -/
structure LoopOut where
  result : Except HandleErr String
  db : Db
  trace : List Effect

/-- Embedding of the proofmode upload loop (part_005 lines 225-244): for
each metadata record, look its file_name up in the zip listing, open the
entry, post it with the cbor option, and keep the returned cid; any failure
marks the Error status and aborts.  `k` counts issued uploads and `cid`
carries the running cid variable. -/
def uploadLoop (env : Env) (p : String) (names : List String) :
    List Meta → Nat → String → Db → LoopOut
  | [], _, cid, db => ⟨.ok cid, db, []⟩
  | m :: ms, k, _, db =>
    if m.fileName ∈ names then
      match env.zipEntryOpen m.fileName with
      | .error e =>
        ⟨.error (.zipEntryOpenFailed m.fileName e), setFileStatusError db p e,
          [.openZipEntry m.fileName, .dbSetError e]⟩
      | .ok _ =>
        match Webhook.PostFileToWebHook (env.upload k) with
        | .error we =>
          ⟨.error (.postFailed p we), setFileStatusError db p we.message,
            [.openZipEntry m.fileName, .uploadCall, .dbSetError we.message]⟩
        | .ok resp =>
          let lo := uploadLoop env p names ms (k + 1) resp.cid db
          ⟨lo.result, lo.db, .openZipEntry m.fileName :: .uploadCall :: lo.trace⟩
    else
      ⟨.error (.fileNotFoundInZip m.fileName),
        setFileStatusError db p ("file " ++ m.fileName ++ " not found in zip"),
        [.dbSetError ("file " ++ m.fileName ++ " not found in zip")]⟩

/-- Embedding of the upload phase of part_005 `handleNewFile` (lines
207-264): mark Uploading with `metadatas[0]["sha256"]` — a panic (`none`
result) when the metadata list is empty — then stream either every bundle
asset out of the zip or the single generic file to the webhook, and mark
Done with the final cid on success. -/
def uploadStage (env : Env) (db : Db) (p : String) (isProof : Bool) (ms : List Meta)
    (cid0 : String) (tr : List Effect) : StepOut :=
  match ms with
  | [] => ⟨none, db, tr⟩
  | m0 :: rest =>
    let db2 := setFileStatusUploading db p m0.sha256
    let tr2 := tr ++ [.dbSetUploading m0.sha256]
    if isProof then
      match env.zipOpen with
      | .error e =>
        ⟨some (.error (.zipOpenFailed p e)), setFileStatusError db2 p e,
          tr2 ++ [.openZip, .dbSetError e]⟩
      | .ok _ =>
        match env.zipNames with
        | .error e =>
          ⟨some (.error (.zipListFailed e)), setFileStatusError db2 p e,
            tr2 ++ [.openZip, .dbSetError e]⟩
        | .ok names =>
          let lo := uploadLoop env p names (m0 :: rest) 0 cid0 db2
          match lo.result with
          | .error he => ⟨some (.error he), lo.db, tr2 ++ [.openZip] ++ lo.trace⟩
          | .ok cid =>
            ⟨some (.ok cid), setFileStatusDone lo.db p cid,
              tr2 ++ [.openZip] ++ lo.trace ++ [.dbSetDone cid]⟩
    else
      match env.fileOpen with
      | .error e =>
        ⟨some (.error (.openFailed p e)), setFileStatusError db2 p e,
          tr2 ++ [.openFile, .dbSetError e]⟩
      | .ok _ =>
        match Webhook.PostFileToWebHook (env.upload 0) with
        | .error we =>
          ⟨some (.error (.postFailed p we)), setFileStatusError db2 p we.message,
            tr2 ++ [.openFile, .uploadCall, .dbSetError we.message]⟩
        | .ok resp =>
          ⟨some (.ok resp.cid), setFileStatusDone db2 p resp.cid,
            tr2 ++ [.openFile, .uploadCall, .dbSetDone resp.cid]⟩

/-- Embedding of the classification and metadata phase of part_005
`handleNewFile` (lines 164-205) followed by the upload phase: classify the
file, produce the per-asset metadata records (verified bundle assets for
proofmode, one hashed record for generic), annotate them with the project,
and hand over to `uploadStage`. -/
def processFile (env : Env) (db : Db) (p : String) (project : Option Project)
    (cid0 : String) (tr : List Effect) : StepOut :=
  match env.checkFileType with
  | .error e =>
    ⟨some (.error (.checkTypeFailed e)), setFileStatusError db p e,
      tr ++ [.classify, .dbSetError e]⟩
  | .ok (.proofmode _) =>
    match env.proofModeMetadatas with
    | .error e =>
      ⟨some (.error (.proofModeFailed e)), setFileStatusError db p e,
        tr ++ [.classify, .verifyProofMode, .dbSetError e]⟩
    | .ok ms =>
      uploadStage env db p true (ms.map (annotateProject project)) cid0
        (tr ++ [.classify, .verifyProofMode])
  | .ok (.generic _) =>
    match env.genericMetadata with
    | .error e =>
      ⟨some (.error (.metadataFailed e)), setFileStatusError db p e,
        tr ++ [.classify, .hashFile, .dbSetError e]⟩
    | .ok m =>
      uploadStage env db p false [annotateProject project m] cid0
        (tr ++ [.classify, .hashFile])

/-- Embedding of part_005 `handleNewFile` (lines 129-265).  Control flow:
query the stored row; Success returns the stored cid, Error returns the
stored message, both without further work; Found/Uploading merely log and
retry; any other status (an absent row) is inserted as Found; then the
classification, metadata and upload phases run. -/
def handleNewFile (env : Env) (db : Db) (p : String) (project : Option Project) : StepOut :=
  let res := db p
  let status := (res.map Row.status).getD ""
  let errorMessage := (res.bind Row.error).getD ""
  let cid0 := (res.bind Row.cid).getD ""
  if status = FileStatusSuccess then
    ⟨some (.ok cid0), db, []⟩
  else if status = FileStatusError then
    ⟨some (.error (.fileHasError p errorMessage)), db, []⟩
  else if status = FileStatusFound ∨ status = FileStatusUploading then
    processFile env db p project cid0 []
  else
    match setFileStatusFound db p with
    | .error e => ⟨some (.error (.dbError e)), db, []⟩
    | .ok db1 => processFile env db1 p project cid0 [.dbInsertFound]

end V5

/-- One pipeline invocation: the environment describing the external world
for the call, the file path, and the project the path belongs to. -/
structure PipelineInv where
  env : V5.Env
  path : String
  project : Option Project

/-- A sequence of pipeline invocations run against the status store, each
one the part_005 `handleNewFile` (as driven by the scan loop and the watch
loop in part_001). -/
def runPipeline : List PipelineInv → Db → Db
  | [], db => db
  | i :: rest, db => runPipeline rest (V5.handleNewFile i.env db i.path i.project).db

/-! Helper lemmas: every store operation issued by the pipeline touches only
the row of the path it is keyed by, and terminal statuses short-circuit. -/

theorem setFileStatusUploading_ne {db : Db} {p sha q : String} (h : q ≠ p) :
    setFileStatusUploading db p sha q = db q := by
  simp [setFileStatusUploading, h]

theorem setFileStatusDone_ne {db : Db} {p cid q : String} (h : q ≠ p) :
    setFileStatusDone db p cid q = db q := by
  simp [setFileStatusDone, h]

theorem setFileStatusError_ne {db : Db} {p msg q : String} (h : q ≠ p) :
    setFileStatusError db p msg q = db q := by
  simp [setFileStatusError, h]

theorem setFileStatusFound_ne {db db1 : Db} {p q : String}
    (hok : setFileStatusFound db p = .ok db1) (h : q ≠ p) : db1 q = db q := by
  by_cases hs : (db p).isSome
  · simp [setFileStatusFound, hs] at hok
  · simp only [setFileStatusFound, hs, if_false, Bool.false_eq_true, if_neg,
      not_false_eq_true, Except.ok.injEq] at hok
    rw [← hok]
    simp [h]

theorem uploadLoop_db_ne (env : V5.Env) (p : String) (names : List String) :
    ∀ (ms : List Meta) (k : Nat) (cid : String) (db : Db) (q : String), q ≠ p →
      (V5.uploadLoop env p names ms k cid db).db q = db q := by
  intro ms
  induction ms with
  | nil => intro k cid db q h; rfl
  | cons m rest ih =>
    intro k cid db q h
    by_cases hmem : m.fileName ∈ names
    · simp only [V5.uploadLoop, hmem, if_true]
      cases hzo : env.zipEntryOpen m.fileName with
      | error e => simp [setFileStatusError_ne h]
      | ok u =>
        cases hup : Webhook.PostFileToWebHook (env.upload k) with
        | error we => simp [setFileStatusError_ne h]
        | ok resp => simpa using ih (k + 1) resp.cid db q h
    · simp only [V5.uploadLoop, hmem, if_false]
      simp [setFileStatusError_ne h]

theorem uploadStage_db_ne (env : V5.Env) (db : Db) (p : String) (isProof : Bool)
    (ms : List Meta) (cid0 : String) (tr : List Effect) (q : String) (h : q ≠ p) :
    (V5.uploadStage env db p isProof ms cid0 tr).db q = db q := by
  cases ms with
  | nil => rfl
  | cons m0 rest =>
    simp only [V5.uploadStage]
    cases isProof with
    | true =>
      simp only [if_true]
      cases hzo : env.zipOpen with
      | error e => simp [setFileStatusError_ne h, setFileStatusUploading_ne h]
      | ok u =>
        cases hzn : env.zipNames with
        | error e => simp [setFileStatusError_ne h, setFileStatusUploading_ne h]
        | ok names =>
          cases hlo : (V5.uploadLoop env p names (m0 :: rest) 0 cid0
              (setFileStatusUploading db p m0.sha256)).result with
          | error he =>
            have hdb := uploadLoop_db_ne env p names (m0 :: rest) 0 cid0
              (setFileStatusUploading db p m0.sha256) q h
            simp [hlo, hdb, setFileStatusUploading_ne h]
          | ok cid =>
            have hdb := uploadLoop_db_ne env p names (m0 :: rest) 0 cid0
              (setFileStatusUploading db p m0.sha256) q h
            simp [hlo, hdb, setFileStatusDone_ne h, setFileStatusUploading_ne h]
    | false =>
      cases hfo : env.fileOpen with
      | error e => simp [setFileStatusError_ne h, setFileStatusUploading_ne h]
      | ok u =>
        cases hup : Webhook.PostFileToWebHook (env.upload 0) with
        | error we => simp [setFileStatusError_ne h, setFileStatusUploading_ne h]
        | ok resp => simp [setFileStatusDone_ne h, setFileStatusUploading_ne h]

theorem processFile_db_ne (env : V5.Env) (db : Db) (p : String)
    (project : Option Project) (cid0 : String) (tr : List Effect) (q : String) (h : q ≠ p) :
    (V5.processFile env db p project cid0 tr).db q = db q := by
  simp only [V5.processFile]
  cases hct : env.checkFileType with
  | error e => simp [setFileStatusError_ne h]
  | ok ct =>
    cases ct with
    | proofmode mt =>
      cases hpm : env.proofModeMetadatas with
      | error e => simp [setFileStatusError_ne h]
      | ok ms =>
        have hu := uploadStage_db_ne env db p true (ms.map (annotateProject project))
        simpa using hu cid0 (tr ++ [.classify, .verifyProofMode]) q h
    | generic mt =>
      cases hgm : env.genericMetadata with
      | error e => simp [setFileStatusError_ne h]
      | ok m =>
        have hu := uploadStage_db_ne env db p false [annotateProject project m]
        simpa using hu cid0 (tr ++ [.classify, .hashFile]) q h

theorem handleNewFile_db_ne (env : V5.Env) (db : Db) (p : String)
    (project : Option Project) (q : String) (h : q ≠ p) :
    (V5.handleNewFile env db p project).db q = db q := by
  simp only [V5.handleNewFile]
  split
  · rfl
  · split
    · rfl
    · split
      · exact processFile_db_ne env db p project _ [] q h
      · cases hf : setFileStatusFound db p with
        | error e => simp [hf]
        | ok db1 =>
          simp only [hf]
          rw [processFile_db_ne env db1 p project _ [.dbInsertFound] q h]
          exact setFileStatusFound_ne hf h

theorem handleNewFile_success_eq (env : V5.Env) (db : Db) (p : String)
    (project : Option Project) (row : Row) (hrow : db p = some row)
    (hs : row.status = FileStatusSuccess) :
    V5.handleNewFile env db p project = ⟨some (.ok (row.cid.getD "")), db, []⟩ := by
  simp [V5.handleNewFile, hrow, hs]

theorem handleNewFile_error_eq (env : V5.Env) (db : Db) (p : String)
    (project : Option Project) (row : Row) (hrow : db p = some row)
    (hs : row.status = FileStatusError) :
    V5.handleNewFile env db p project =
      ⟨some (.error (.fileHasError p (row.error.getD ""))), db, []⟩ := by
  have hne : FileStatusError ≠ FileStatusSuccess := by decide
  simp [V5.handleNewFile, hrow, hs, hne]

/-- C2: for every path whose stored status is Success, `handleNewFile`
returns the stored content identifier, performs no hashing, no
classification and no network upload (the effect trace is empty), and
leaves the stored record unchanged. -/
theorem handleNewFile_success_short_circuit :
    ∀ (env : V5.Env) (db : Db) (p : String) (project : Option Project) (row : Row),
      db p = some row → row.status = FileStatusSuccess →
      V5.handleNewFile env db p project = ⟨some (.ok (row.cid.getD "")), db, []⟩ := by
  intro env db p project row hrow hs
  exact handleNewFile_success_eq env db p project row hrow hs

/-- Sample environment used by the witnesses: a generic file whose upload
would succeed with cid "bafy". -/
def sampleEnv : V5.Env :=
  { checkFileType := .ok (.generic "application/octet-stream")
    proofModeMetadatas := .ok []
    genericMetadata := .ok { sha256 := "aa", fileName := "note.txt" }
    zipOpen := .ok ()
    zipNames := .ok []
    zipEntryOpen := fun _ => .ok ()
    fileOpen := .ok ()
    upload := fun _ => .response 200 (.json "bafy" none) }

/-- Stored row of a path that finished in Success with cid "bafycid". -/
def successRow : Row :=
  { status := "Success", sha256 := some "aa", error := none, cid := some "bafycid" }

/-- Store holding one Success row at path done.txt. -/
def successDb : Db := fun q => if q = "done.txt" then some successRow else none

/-- Witness for C2 at the concrete Success row. -/
theorem handleNewFile_success_short_circuit_witness :
    V5.handleNewFile sampleEnv successDb "done.txt" none =
      ⟨some (.ok "bafycid"), successDb, []⟩ :=
  handleNewFile_success_short_circuit sampleEnv successDb "done.txt" none successRow rfl rfl

/-- C3: for every path whose stored status is Error, `handleNewFile` returns
an error carrying the stored error message, with no new hash computation, no
classification or verification and no network upload (empty effect trace),
and leaves the store unchanged. -/
theorem handleNewFile_error_short_circuit :
    ∀ (env : V5.Env) (db : Db) (p : String) (project : Option Project) (row : Row),
      db p = some row → row.status = FileStatusError →
      V5.handleNewFile env db p project =
        ⟨some (.error (.fileHasError p (row.error.getD ""))), db, []⟩ := by
  intro env db p project row hrow hs
  exact handleNewFile_error_eq env db p project row hrow hs

/-- Stored row of a path that finished in Error. -/
def errorRow : Row :=
  { status := "Error", sha256 := none, error := some "verification failed", cid := none }

/-- Store holding one Error row at path bad.zip. -/
def errorDb : Db := fun q => if q = "bad.zip" then some errorRow else none

/-- Witness for C3 at the concrete Error row. -/
theorem handleNewFile_error_short_circuit_witness :
    V5.handleNewFile sampleEnv errorDb "bad.zip" none =
      ⟨some (.error (.fileHasError "bad.zip" "verification failed")), errorDb, []⟩ :=
  handleNewFile_error_short_circuit sampleEnv errorDb "bad.zip" none errorRow rfl rfl

/-- One invocation preserves every terminal row: the row of the invoked path
short-circuits, rows of other paths are never written. -/
theorem handleNewFile_preserves_terminal (env : V5.Env) (db : Db) (p : String)
    (project : Option Project) (q : String) (row : Row) (hq : db q = some row)
    (hterm : row.status = FileStatusSuccess ∨ row.status = FileStatusError) :
    (V5.handleNewFile env db p project).db q = some row := by
  by_cases hpq : q = p
  · subst hpq
    rcases hterm with h | h
    · rw [handleNewFile_success_eq env db q project row hq h]
      exact hq
    · rw [handleNewFile_error_eq env db q project row hq h]
      exact hq
  · rw [handleNewFile_db_ne env db p project q hpq]
    exact hq

/-- C4: once a path's stored status is Success or Error, no later sequence
of pipeline invocations (on that path or any other) overwrites its row. -/
theorem runPipeline_terminal_status_preserved :
    ∀ (invs : List PipelineInv) (db : Db) (q : String) (row : Row),
      db q = some row → (row.status = FileStatusSuccess ∨ row.status = FileStatusError) →
      runPipeline invs db q = some row := by
  intro invs
  induction invs with
  | nil => intro db q row h _; exact h
  | cons i rest ih =>
    intro db q row h hterm
    exact ih _ q row (handleNewFile_preserves_terminal i.env db i.path i.project q row h hterm)
      hterm

/-- Witness for C4: two further invocations, one on the terminal path itself
and one on another path, leave the Success row intact. -/
theorem runPipeline_terminal_status_preserved_witness :
    runPipeline [⟨sampleEnv, "done.txt", none⟩, ⟨sampleEnv, "other.txt", none⟩]
      successDb "done.txt" = some successRow :=
  runPipeline_terminal_status_preserved
    [⟨sampleEnv, "done.txt", none⟩, ⟨sampleEnv, "other.txt", none⟩]
    successDb "done.txt" successRow rfl (Or.inl rfl)

/-- The upload stage panics exactly on the empty metadata list (the
`metadatas[0]` access of part_005 line 207). -/
theorem uploadStage_result_none_iff (env : V5.Env) (db : Db) (p : String) (isProof : Bool)
    (ms : List Meta) (cid0 : String) (tr : List Effect) :
    (V5.uploadStage env db p isProof ms cid0 tr).result = none ↔ ms = [] := by
  cases ms with
  | nil => simp [V5.uploadStage]
  | cons m0 rest =>
    simp only [V5.uploadStage]
    constructor
    · intro hcon
      exfalso
      revert hcon
      cases isProof with
      | true =>
        cases env.zipOpen with
        | error e => simp
        | ok u =>
          cases env.zipNames with
          | error e => simp
          | ok names =>
            cases hlo : (V5.uploadLoop env p names (m0 :: rest) 0 cid0
                (setFileStatusUploading db p m0.sha256)).result with
            | error he => simp [hlo]
            | ok cid => simp [hlo]
      | false =>
        cases env.fileOpen with
        | error e => simp
        | ok u =>
          cases hup : Webhook.PostFileToWebHook (env.upload 0) with
          | error we => simp [hup]
          | ok resp => simp [hup]
    · intro hcon
      exact List.noConfusion hcon

/-- The classify-and-extract phase panics exactly when classification
reports a proofmode bundle whose verified asset list is empty. -/
theorem processFile_result_none_iff (env : V5.Env) (db : Db) (p : String)
    (project : Option Project) (cid0 : String) (tr : List Effect) :
    (V5.processFile env db p project cid0 tr).result = none ↔
      ((∃ mt, env.checkFileType = .ok (.proofmode mt)) ∧
        env.proofModeMetadatas = .ok []) := by
  simp only [V5.processFile]
  cases hct : env.checkFileType with
  | error e => simp
  | ok ct =>
    cases ct with
    | proofmode mt =>
      cases hpm : env.proofModeMetadatas with
      | error e => simp
      | ok ms =>
        rw [uploadStage_result_none_iff]
        simp
    | generic mt =>
      cases hgm : env.genericMetadata with
      | error e => simp
      | ok m =>
        rw [uploadStage_result_none_iff]
        simp

/-- C9: `handleNewFile` panics (result `none`, the out-of-range access
`metadatas[0]["sha256"]`) exactly when the path does not short-circuit, the
file classifies as a proofmode bundle, and verification yields the empty
asset list; in particular it is total only under the precondition that
classification yields at least one metadata record. -/
theorem handleNewFile_result_none_iff_empty_metadatas :
    ∀ (env : V5.Env) (db : Db) (p : String) (project : Option Project),
      (V5.handleNewFile env db p project).result = none ↔
        (statusOf db p ≠ FileStatusSuccess ∧ statusOf db p ≠ FileStatusError ∧
          (statusOf db p = FileStatusFound ∨ statusOf db p = FileStatusUploading ∨
            db p = none) ∧
          (∃ mt, env.checkFileType = .ok (.proofmode mt)) ∧
          env.proofModeMetadatas = .ok []) := by
  intro env db p project
  have hstat : ((db p).map Row.status).getD "" = statusOf db p := rfl
  simp only [V5.handleNewFile, hstat]
  by_cases hS : statusOf db p = FileStatusSuccess
  · simp [hS]
  · by_cases hE : statusOf db p = FileStatusError
    · have hne : FileStatusError ≠ FileStatusSuccess := by decide
      simp [hS, hE, hne]
    · by_cases hFU : statusOf db p = FileStatusFound ∨ statusOf db p = FileStatusUploading
      · simp only [hS, hE, hFU, if_true, if_false, if_neg, not_false_eq_true]
        rw [processFile_result_none_iff]
        constructor
        · rintro ⟨hex, hpm⟩
          refine ⟨hS, hE, ?_, hex, hpm⟩
          rcases hFU with h | h
          · exact Or.inl h
          · exact Or.inr (Or.inl h)
        · rintro ⟨_, _, _, hex, hpm⟩
          exact ⟨hex, hpm⟩
      · cases hdb : db p with
        | some row =>
          have hsome : setFileStatusFound db p =
              .error "duplicate key value violates unique constraint" := by
            simp [setFileStatusFound, hdb]
          simp [hS, hE, hFU, hsome, hdb]
        | none =>
          have hok : setFileStatusFound db p =
              .ok (fun q => if q = p then some foundRow else db q) := by
            simp [setFileStatusFound, hdb]
          simp only [hS, hE, hFU, hok, if_false, if_neg, not_false_eq_true]
          rw [processFile_result_none_iff]
          simp [hS, hE, hFU, hdb]

/-- C8: for an upload whose HTTP response is 200 with a string-valued
server-side error field in the body, the part_005 pipeline ends with an
error result and a terminal Error status for the path: the body cannot be
decoded into the response struct (its Error field has interface type
`error`), so `PostFileToWebHook` returns an error, the caller records an
Error row, no Success transition runs and no cid is stored. -/
theorem handleNewFile_server_error_field_records_error :
    ∀ (env : V5.Env) (db : Db) (p : String) (project : Option Project) (mt : String)
      (m : Meta) (c emsg : String),
      db p = none →
      env.checkFileType = .ok (.generic mt) →
      env.genericMetadata = .ok m →
      env.fileOpen = .ok () →
      env.upload 0 = .response 200 (.json c (some emsg)) →
      (V5.handleNewFile env db p project).result =
        some (.error (.postFailed p .decodeErrorField)) ∧
      statusOf (V5.handleNewFile env db p project).db p = FileStatusError ∧
      (∀ cid, Effect.dbSetDone cid ∉ (V5.handleNewFile env db p project).trace) ∧
      ((V5.handleNewFile env db p project).db p).bind Row.cid = none := by
  intro env db p project mt m c emsg hdb hct hgm hfo hup
  have hpost : Webhook.PostFileToWebHook (env.upload 0) = .error .decodeErrorField := by
    rw [hup]; rfl
  have hfound : setFileStatusFound db p =
      .ok (fun q => if q = p then some foundRow else db q) := by
    simp [setFileStatusFound, hdb]
  have hH : V5.handleNewFile env db p project =
      ⟨some (.error (.postFailed p .decodeErrorField)),
        setFileStatusError
          (setFileStatusUploading (fun q => if q = p then some foundRow else db q) p
            (annotateProject project m).sha256)
          p (Webhook.WebhookErr.message .decodeErrorField),
        [.dbInsertFound, .classify, .hashFile,
          .dbSetUploading (annotateProject project m).sha256, .openFile, .uploadCall,
          .dbSetError (Webhook.WebhookErr.message .decodeErrorField)]⟩ := by
    simp [V5.handleNewFile, hdb, hfound, V5.processFile, hct, hgm, V5.uploadStage, hfo,
      hpost, FileStatusSuccess, FileStatusError, FileStatusFound, FileStatusUploading]
  refine ⟨by rw [hH], ?_, ?_, ?_⟩
  · rw [hH]
    simp [statusOf, setFileStatusError, setFileStatusUploading, foundRow]
  · intro cid
    rw [hH]
    simp
  · rw [hH]
    simp [setFileStatusError, setFileStatusUploading, foundRow]

/-- Environment in which a generic upload gets HTTP 200 whose body carries a
server-side error field. -/
def errFieldEnv : V5.Env :=
  { checkFileType := .ok (.generic "application/octet-stream")
    proofModeMetadatas := .ok []
    genericMetadata := .ok { sha256 := "aa", fileName := "note.txt" }
    zipOpen := .ok ()
    zipNames := .ok []
    zipEntryOpen := fun _ => .ok ()
    fileOpen := .ok ()
    upload := fun _ => .response 200 (.json "" (some "boom")) }

/-- Witness for C8 on a fresh path with the error-carrying 200 response. -/
theorem handleNewFile_server_error_field_records_error_witness :
    (V5.handleNewFile errFieldEnv emptyDb "note.txt" none).result =
      some (.error (.postFailed "note.txt" .decodeErrorField)) ∧
    statusOf (V5.handleNewFile errFieldEnv emptyDb "note.txt" none).db "note.txt" =
      FileStatusError ∧
    (∀ cid,
      Effect.dbSetDone cid ∉ (V5.handleNewFile errFieldEnv emptyDb "note.txt" none).trace) ∧
    ((V5.handleNewFile errFieldEnv emptyDb "note.txt" none).db "note.txt").bind Row.cid =
      none :=
  handleNewFile_server_error_field_records_error errFieldEnv emptyDb "note.txt" none
    "application/octet-stream" { sha256 := "aa", fileName := "note.txt" } "" "boom"
    rfl rfl rfl rfl rfl

/-- Environment for part_003's `handleNewFile`: hashing succeeds and the
webhook accepts the upload, answering 200 with cid bafy123. -/
def staleCidEnv : V3.Env :=
  { genericMetadata := .ok { sha256 := "ab12", fileName := "note.txt" }
    upload := .response 200 (.json "bafy123" none) }

/-- C1: evaluation of part_003 `handleNewFile` on a fresh path whose upload
succeeds with cid bafy123: the call returns bafy123 but the Success row it
writes stores the stale cid read by the initial query — the empty string —
so the identifier recorded by the Success transition differs from the
identifier returned by the uploader, contradicting the claim (the later
part_004/part_005 revisions store resp.Cid). -/
theorem handleNewFileV3_stores_stale_cid :
    (V3.handleNewFile staleCidEnv emptyDb "note.txt" none).result = some (.ok "bafy123") ∧
    statusOf (V3.handleNewFile staleCidEnv emptyDb "note.txt" none).db "note.txt" =
      FileStatusSuccess ∧
    ((V3.handleNewFile staleCidEnv emptyDb "note.txt" none).db "note.txt").map Row.cid =
      some (some "") := by
  refine ⟨?_, ?_, ?_⟩ <;> rfl
